import Mathlib

/-!
Verification of the `cbc-population-distributions` core: the adaptive
rejection sampler of `population_sampler.py` (embedded over `ℚ`, with the
random draws supplied by an explicit oracle of unit-uniform values) and the
"Does Matter Matter?" mass models of `mass.py` (embedded over `ℝ`, with the
external `gwpopulation.utils.truncnorm` taken as a function parameter).

Machine integers do not appear in the sources (all quantities are Python
floats or sizes), so real/rational arithmetic is used throughout; numpy
array operations are embedded pointwise / as `List` operations.
-/

namespace CbcPop

/-- A per-event parameter mapping, as passed to the external
population-density evaluator `model.prob` (a Python dict of arrays,
embedded per event as an association list). -/
abbrev ParamDict := List (String × ℚ)

/-- The map `numpy.random.uniform(low, high)` expressed through its unit draw:
numpy returns `low + (high - low) * u` with `u` uniform on `[0, 1)`
(the half-open interval: `low` is includable, `high` is not). -/
def npUniform (low high u : ℚ) : ℚ := low + (high - low) * u

/-- External `bilby.core.prior.Uniform`: `sample` draws a unit uniform `u`
and rescales it as `minimum + u * (maximum - minimum)`. -/
def bilbyUniformSample (minimum maximum u : ℚ) : ℚ := minimum + u * (maximum - minimum)

/-- The `BOUNDS` table of `population_sampler.py` (source frame). -/
def BOUNDS : List (String × ℚ × ℚ) :=
  [("mass_1", 1, 100),
   ("mass_ratio", 0, 1),
   ("a_1", 0, 1),
   ("a_2", 0, 1),
   ("cos_tilt_1", -1, 1),
   ("cos_tilt_2", -1, 1),
   ("redshift", 0, 1.5)]

/-- Bounds lookup for a parameter key (`(0, 0)` for an absent key;
every key used below is present). -/
def boundFor (key : String) : ℚ × ℚ :=
  match BOUNDS.find? (fun e => e.1 == key) with
  | some e => e.2
  | none => (0, 0)

/-- One candidate event as produced by `_draw_from_prior`: the seven
`BOUNDS` parameters. -/
structure Candidate where
  mass_1 : ℚ
  mass_ratio : ℚ
  a_1 : ℚ
  a_2 : ℚ
  cos_tilt_1 : ℚ
  cos_tilt_2 : ℚ
  redshift : ℚ
deriving DecidableEq

/-- A row of the cumulative `total_samples` frame: the candidate
parameters, the derived `mass_2` column, and the importance weight
column `prob`. -/
structure Row where
  mass_1 : ℚ
  mass_ratio : ℚ
  a_1 : ℚ
  a_2 : ℚ
  cos_tilt_1 : ℚ
  cos_tilt_2 : ℚ
  redshift : ℚ
  mass_2 : ℚ
  prob : ℚ
deriving DecidableEq

instance : Inhabited Row := ⟨⟨0, 0, 0, 0, 0, 0, 0, 0, 0⟩⟩

/-- A returned event: a row of the final frame after
`total_samples.drop(columns="prob")`. -/
structure Event where
  mass_1 : ℚ
  mass_ratio : ℚ
  a_1 : ℚ
  a_2 : ℚ
  cos_tilt_1 : ℚ
  cos_tilt_2 : ℚ
  redshift : ℚ
  mass_2 : ℚ
deriving DecidableEq

def Row.toEvent (r : Row) : Event :=
  ⟨r.mass_1, r.mass_ratio, r.a_1, r.a_2, r.cos_tilt_1, r.cos_tilt_2, r.redshift, r.mass_2⟩

/-- The per-event dict handed to `model.prob` (and to the selection
function): the drawn parameters plus the derived `mass_2`, in the
insertion order of the source. -/
def Row.toDict (r : Row) : ParamDict :=
  [("mass_1", r.mass_1), ("mass_ratio", r.mass_ratio), ("a_1", r.a_1), ("a_2", r.a_2),
   ("cos_tilt_1", r.cos_tilt_1), ("cos_tilt_2", r.cos_tilt_2), ("redshift", r.redshift),
   ("mass_2", r.mass_2)]

/-- The source of randomness for one run: `unit k key i` is the unit
uniform consumed by the prior draw of parameter `key` for candidate `i`
of iteration `k` (key `"redshift_unit"` feeds the bilby prior's own
draw), and `accept k i` is the unit uniform consumed by the acceptance
test of pooled candidate `i` at iteration `k`. -/
structure Oracle where
  unit : ℕ → String → ℕ → ℚ
  accept : ℕ → ℕ → ℚ

/-- Candidate `i` of a prior batch: every parameter drawn uniformly over
its `BOUNDS` entry, after which the `redshift` value is overwritten by a
draw from the declared `bilby` `Uniform(0, 1.5)` prior (the first
redshift draw is consumed and discarded). -/
def priorCandidate (u : String → ℕ → ℚ) (i : ℕ) : Candidate :=
  let draw := fun key => npUniform (boundFor key).1 (boundFor key).2 (u key i)
  let _redshift_uniform := draw "redshift"
  { mass_1 := draw "mass_1"
    mass_ratio := draw "mass_ratio"
    a_1 := draw "a_1"
    a_2 := draw "a_2"
    cos_tilt_1 := draw "cos_tilt_1"
    cos_tilt_2 := draw "cos_tilt_2"
    redshift := bilbyUniformSample (boundFor "redshift").1 (boundFor "redshift").2
      (u "redshift_unit" i) }

/-- The batch builder `_draw_from_prior(n_samples)`. -/
def _draw_from_prior (B : ℕ) (u : String → ℕ → ℚ) : List Candidate :=
  (List.range B).map (priorCandidate u)

/-- Lines 74-82 of `population_sampler.py`, per candidate: derive
`mass_2 = mass_1 * mass_ratio`, then weight by
`model.prob(data) * mass_1 * vt_model(data)`. -/
def weightRow (model vt : ParamDict → ℚ) (c : Candidate) : Row :=
  let mass_2 := c.mass_1 * c.mass_ratio
  let r : Row := ⟨c.mass_1, c.mass_ratio, c.a_1, c.a_2, c.cos_tilt_1, c.cos_tilt_2,
    c.redshift, mass_2, 0⟩
  { r with prob := model r.toDict * c.mass_1 * vt r.toDict }

/-- The weighted data frame of one batch. -/
def weightBatch (model vt : ParamDict → ℚ) (cands : List Candidate) : List Row :=
  cands.map (weightRow model vt)

/-- The `pandas.Series.max` reduction over a list of weights (the frame is never empty
when it is taken in the source; `0` is the junk value for `[]`). -/
def listMax : List ℚ → ℚ
  | [] => 0
  | x :: xs => xs.foldl max x

/-- The maximum of the `prob` column of a pool. -/
def poolMax (pool : List Row) : ℚ := listMax (pool.map Row.prob)

/-- The freshly weighted batch of iteration `k`. -/
def rowsAt (model vt : ParamDict → ℚ) (B : ℕ) (o : Oracle) (k : ℕ) : List Row :=
  weightBatch model vt (_draw_from_prior B (o.unit k))

/-- Everything one iteration of the `while` loop computes before the
stopping test (lines 73-92 of `population_sampler.py`). -/
structure IterState where
  rows : List Row
  pool2 : List Row
  maxp : ℚ
  pool3 : List Row
  draws : List ℚ
  keep : List Bool
  accepted : List Row

/-- One iteration body: draw and weight a batch, append it to the pool,
take the pool maximum, prune strictly-below-threshold rows
(`prob > max_prob / n_per_iteration` is kept), draw one uniform
threshold in `[0, max_prob)` per pooled row, and mark the rows passing
`prob >= draw`. -/
def iterState (model vt : ParamDict → ℚ) (B : ℕ) (o : Oracle) (k : ℕ)
    (pool : List Row) : IterState :=
  let rows := rowsAt model vt B o k
  let pool2 := pool ++ rows
  let maxp := poolMax pool2
  let pool3 := pool2.filter fun r => r.prob > maxp / (B : ℚ)
  let draws := (List.range pool3.length).map fun i => npUniform 0 maxp (o.accept k i)
  let keep := List.zipWith (fun r d => decide (r.prob ≥ d)) pool3 draws
  let accepted := ((pool3.zip keep).filter fun p => p.2).map fun p => p.1
  ⟨rows, pool2, maxp, pool3, draws, keep, accepted⟩

/-- The cumulative pool carried into iteration `k` (the pruned pool of
the previous iteration; the run starts from an empty frame). -/
def poolIter (model vt : ParamDict → ℚ) (B : ℕ) (o : Oracle) : ℕ → List Row
  | 0 => []
  | k + 1 => (iterState model vt B o k (poolIter model vt B o k)).pool3

/-- The state computed by iteration `k` of a run started from the empty
pool. -/
def stateAt (model vt : ParamDict → ℚ) (B : ℕ) (o : Oracle) (k : ℕ) : IterState :=
  iterState model vt B o k (poolIter model vt B o k)

/-- The extended (appended, not yet pruned) pool of iteration `k`. -/
def pool2At (model vt : ParamDict → ℚ) (B : ℕ) (o : Oracle) (k : ℕ) : List Row :=
  (stateAt model vt B o k).pool2

/-- The `max_prob` value used by the acceptance test of iteration `k`. -/
def maxpIter (model vt : ParamDict → ℚ) (B : ℕ) (o : Oracle) (k : ℕ) : ℚ :=
  (stateAt model vt B o k).maxp

/-- The acceptance mask of iteration `k`. -/
def keepAt (model vt : ParamDict → ℚ) (B : ℕ) (o : Oracle) (k : ℕ) : List Bool :=
  (stateAt model vt B o k).keep

/-- The hard-coded two-event dictionary evaluated (and discarded) in the
low-efficiency branch, one `ParamDict` per event (note: no `mass_ratio`
key). -/
def probeDicts : List ParamDict :=
  [[("mass_1", 5), ("mass_2", 1), ("a_1", 0.5), ("a_2", 0.5),
    ("cos_tilt_1", 0.1), ("cos_tilt_2", 0.1), ("redshift", 0.6)],
   [("mass_1", 9), ("mass_2", 5), ("a_1", 0.6), ("a_2", 0.6),
    ("cos_tilt_1", 0.1), ("cos_tilt_2", 0.1), ("redshift", 0.6)]]

/-- The `while True` loop of `draw_true_values`, indexed by fuel (the
source has no iteration cap; `none` means the loop is still running
after `fuel` iterations). On success the `prob` column is dropped and
the first `n` passing rows are returned. The low-efficiency branch
evaluates `model.prob` on `probeDicts` and discards the result, as the
source does. -/
def sampleLoop (model vt : ParamDict → ℚ) (B n : ℕ) (o : Oracle) :
    ℕ → List Row → ℕ → Option (List Event)
  | 0, _, _ => none
  | fuel + 1, pool, k =>
    let st := iterState model vt B o k pool
    if n ≤ st.accepted.length then
      some ((st.accepted.take n).map Row.toEvent)
    else
      let _probe := probeDicts.map model
      sampleLoop model vt B n o fuel st.pool3 (k + 1)

/-- The variant of `sampleLoop` with the discarded low-efficiency density evaluation
removed (the program variant claim C10 compares against). -/
def sampleLoopNoProbe (model vt : ParamDict → ℚ) (B n : ℕ) (o : Oracle) :
    ℕ → List Row → ℕ → Option (List Event)
  | 0, _, _ => none
  | fuel + 1, pool, k =>
    let st := iterState model vt B o k pool
    if n ≤ st.accepted.length then
      some ((st.accepted.take n).map Row.toEvent)
    else
      sampleLoopNoProbe model vt B n o fuel st.pool3 (k + 1)

/-- The validation failures of `draw_true_values`. -/
inductive SamplerError where
  | invalidArgument (msg : String)
  | unsupportedFeature (msg : String)
deriving DecidableEq

/-- The entry point `draw_true_values(model, vt_model, n_samples)`: reject
`n_samples <= 0`, reject any custom `vt_model` (the default is the
constant-1 selection function), set the batch size to
`n_samples * 10000`, and run the rejection loop from an empty pool. -/
def draw_true_values (model : ParamDict → ℚ) (vt_model : Option (ParamDict → ℚ))
    (n_samples : ℤ) (o : Oracle) (fuel : ℕ) : Except SamplerError (Option (List Event)) :=
  if n_samples ≤ 0 then
    .error (.invalidArgument "n_samples must be positive.")
  else
    match vt_model with
    | some _ => .error (.unsupportedFeature "Custom VT models are not yet implemented.")
    | none =>
      let vt : ParamDict → ℚ := fun _ => 1
      let n_per_iteration := n_samples.toNat * 10000
      .ok (sampleLoop model vt n_per_iteration n_samples.toNat o fuel [] 0)

/-- The entry point built on the probe-free loop. -/
def draw_true_values_no_probe (model : ParamDict → ℚ) (vt_model : Option (ParamDict → ℚ))
    (n_samples : ℤ) (o : Oracle) (fuel : ℕ) : Except SamplerError (Option (List Event)) :=
  if n_samples ≤ 0 then
    .error (.invalidArgument "n_samples must be positive.")
  else
    match vt_model with
    | some _ => .error (.unsupportedFeature "Custom VT models are not yet implemented.")
    | none =>
      let vt : ParamDict → ℚ := fun _ => 1
      let n_per_iteration := n_samples.toNat * 10000
      .ok (sampleLoopNoProbe model vt n_per_iteration n_samples.toNat o fuel [] 0)

/-!
The mass models of `mass.py`, embedded over `ℝ` (all hyperparameters are
Python floats; powers with real exponents are `Real.rpow`). The external
`gwpopulation.utils.truncnorm` is a function parameter `tn` taking
`(mass, mu, sigma, low, high)`.
-/

noncomputable section

/-- First piece of the broken power law: `mass**alpha_1` (used below
`NSmax`). -/
def plawPiece1 (mass alpha_1 : ℝ) : ℝ := mass ^ alpha_1

/-- Second piece: `(mass**alpha_dip) * (NSmax ** (alpha_1 - alpha_dip))`
(used between `NSmax` and `BHmin`). -/
def plawPiece2 (mass NSmax alpha_1 alpha_dip : ℝ) : ℝ :=
  mass ^ alpha_dip * NSmax ^ (alpha_1 - alpha_dip)

/-- Third piece:
`(mass**alpha_2) * (NSmax ** (alpha_1 - alpha_dip)) * (BHmin ** (alpha_dip - alpha_2))`
(used above `BHmin`). -/
def plawPiece3 (mass NSmax BHmin alpha_1 alpha_2 alpha_dip : ℝ) : ℝ :=
  mass ^ alpha_2 * NSmax ^ (alpha_1 - alpha_dip) * BHmin ^ (alpha_dip - alpha_2)

/-- The `xp.select(condlist, choicelist, default=0.0)` dispatch of
`power_law_dip_break_1d`: the first true condition of
`[mass < NSmax, NSmax <= mass < BHmin, BHmin <= mass]` selects its
piece (the conditions are exhaustive over `ℝ`). -/
def plawSelect (mass NSmax BHmin alpha_1 alpha_2 alpha_dip : ℝ) : ℝ :=
  if mass < NSmax then plawPiece1 mass alpha_1
  else if mass < BHmin then plawPiece2 mass NSmax alpha_1 alpha_dip
  else plawPiece3 mass NSmax BHmin alpha_1 alpha_2 alpha_dip

/-- The 1D density `power_law_dip_break_1d` of `mass.py`: broken power law, two notch
filters, high-pass and low-pass filters, and the two truncated-normal
excess peaks (evaluated through the external `tn`). -/
def power_law_dip_break_1d (tn : ℝ → ℝ → ℝ → ℝ → ℝ → ℝ)
    (mass A A2 NSmin NSmax BHmin BHmax UPPERmin UPPERmax n0 n1 n2 n3 n4 n5
      alpha_1 alpha_2 alpha_dip mu1 sig1 mix1 mu2 sig2 mix2
      absolute_mmin absolute_mmax : ℝ) : ℝ :=
  let gaussian_peak1 := tn mass mu1 sig1 absolute_mmin absolute_mmax
  let gaussian_peak2 := tn mass mu2 sig2 absolute_mmin absolute_mmax
  let plaw := plawSelect mass NSmax BHmin alpha_1 alpha_2 alpha_dip
  let highpass_lower := 1 + (NSmin / mass) ^ n0
  let notch_lower := 1 - A / ((1 + (NSmax / mass) ^ n1) * (1 + (mass / BHmin) ^ n2))
  let notch_upper := 1 - A2 / ((1 + (UPPERmin / mass) ^ n3) * (1 + (mass / UPPERmax) ^ n4))
  let lowpass_upper := 1 + (mass / BHmax) ^ n5
  (1 + mix1 * gaussian_peak1 + mix2 * gaussian_peak2) * plaw * notch_lower * notch_upper
    / highpass_lower / lowpass_upper

/-- The helper `_primary_secondary_general`: `p_m1 * p_m2 * (mass_1 >= mass_2) * 2`
(the boolean factor is the 0/1 indicator of `mass_1 >= mass_2`). -/
def _primary_secondary_general (mass_1 mass_2 p_m1 p_m2 : ℝ) : ℝ :=
  p_m1 * p_m2 * (if mass_2 ≤ mass_1 then 1 else 0) * 2

/-- The helper `_primary_secondary_plaw_pairing`: the independent form times
`(mass_2 / mass_1) ** beta_pair`. -/
def _primary_secondary_plaw_pairing (mass_1 mass_2 p_m1 p_m2 beta_pair : ℝ) : ℝ :=
  let q := mass_2 / mass_1
  _primary_secondary_general mass_1 mass_2 p_m1 p_m2 * q ^ beta_pair

/-- The joint density `matter_matters_primary_secondary_independent` of `mass.py`,
pointwise in `(mass_1, mass_2)`: the independent product form,
hard-zeroed on `mass_1 > 60 and mass_2 < 3`
(`xp.where((m1 > 60) * (m2 < 3), 0, prob)`). -/
def matter_matters_primary_secondary_independent (tn : ℝ → ℝ → ℝ → ℝ → ℝ → ℝ)
    (mass_1 mass_2 A A2 NSmin NSmax BHmin BHmax UPPERmin UPPERmax n0 n1 n2 n3 n4 n5
      alpha_1 alpha_2 alpha_dip mu1 sig1 mix1 mu2 sig2 mix2
      absolute_mmin absolute_mmax : ℝ) : ℝ :=
  let p_m1 := power_law_dip_break_1d tn mass_1 A A2 NSmin NSmax BHmin BHmax UPPERmin
    UPPERmax n0 n1 n2 n3 n4 n5 alpha_1 alpha_2 alpha_dip mu1 sig1 mix1 mu2 sig2 mix2
    absolute_mmin absolute_mmax
  let p_m2 := power_law_dip_break_1d tn mass_2 A A2 NSmin NSmax BHmin BHmax UPPERmin
    UPPERmax n0 n1 n2 n3 n4 n5 alpha_1 alpha_2 alpha_dip mu1 sig1 mix1 mu2 sig2 mix2
    absolute_mmin absolute_mmax
  let prob := _primary_secondary_general mass_1 mass_2 p_m1 p_m2
  if 60 < mass_1 ∧ mass_2 < 3 then 0 else prob

/-- The joint density `matter_matters_pairing` of `mass.py`, pointwise: the pairing slope
`beta_pair` switches at `mbreak`
(`xp.where(mass_2 < mbreak, beta_pair_1, beta_pair_2)`), and the same
no-injection region is hard-zeroed. -/
def matter_matters_pairing (tn : ℝ → ℝ → ℝ → ℝ → ℝ → ℝ)
    (mass_1 mass_2 A A2 NSmin NSmax BHmin BHmax UPPERmin UPPERmax n0 n1 n2 n3 n4 n5
      alpha_1 alpha_2 alpha_dip mu1 sig1 mix1 mu2 sig2 mix2
      absolute_mmin absolute_mmax mbreak beta_pair_1 beta_pair_2 : ℝ) : ℝ :=
  let p_m1 := power_law_dip_break_1d tn mass_1 A A2 NSmin NSmax BHmin BHmax UPPERmin
    UPPERmax n0 n1 n2 n3 n4 n5 alpha_1 alpha_2 alpha_dip mu1 sig1 mix1 mu2 sig2 mix2
    absolute_mmin absolute_mmax
  let p_m2 := power_law_dip_break_1d tn mass_2 A A2 NSmin NSmax BHmin BHmax UPPERmin
    UPPERmax n0 n1 n2 n3 n4 n5 alpha_1 alpha_2 alpha_dip mu1 sig1 mix1 mu2 sig2 mix2
    absolute_mmin absolute_mmax
  let beta_pair := if mass_2 < mbreak then beta_pair_1 else beta_pair_2
  let prob := _primary_secondary_plaw_pairing mass_1 mass_2 p_m1 p_m2 beta_pair
  if 60 < mass_1 ∧ mass_2 < 3 then 0 else prob

end

/-!
Concrete instances used by witnesses and counterexamples.
-/

/-- The constant-1 density evaluator (a density with a positive region
everywhere inside the bounds). -/
def oneModel : ParamDict → ℚ := fun _ => 1

/-- The constant `-1` density evaluator (degenerate hyperparameters can
make the analytic density negative; see the contract of
`power_law_dip_break_1d`). -/
def negOneModel : ParamDict → ℚ := fun _ => -1

/-- The default selection function of the source (`vt_model(x) = 1`). -/
def vtOne : ParamDict → ℚ := fun _ => 1

/-- The all-zero oracle: every unit draw is `0` (a legal value: numpy
uniforms live in the half-open `[0, 1)`). -/
def zeroOracle : Oracle := ⟨fun _ _ _ => 0, fun _ _ => 0⟩

/-- The candidate produced from all-zero unit draws: every parameter at
the low end of its bound. -/
def cZero : Candidate := ⟨1, 0, 0, 0, -1, -1, 0⟩

/-- The row produced from `cZero` with weight `p`. -/
def rowZero (p : ℚ) : Row := ⟨1, 0, 0, 0, -1, -1, 0, 0, p⟩

/-- The event returned from a `cZero` row. -/
def eZero : Event := ⟨1, 0, 0, 0, -1, -1, 0, 0⟩

/-- An oracle whose iteration-1 `mass_1` draw is `1/99` (so
`mass_1 = 2`) and whose other unit draws are `0`. -/
def oracleNeg : Oracle :=
  ⟨fun k key _i => if k = 0 then 0 else if key = "mass_1" then 1 / 99 else 0,
   fun _ _ => 0⟩

/-- The iteration-0 row of a `negOneModel` + `oracleNeg` run
(weight `-1 * 1 = -1`). -/
def rowNeg0 : Row := ⟨1, 0, 0, 0, -1, -1, 0, 0, -1⟩

/-- The iteration-1 row of a `negOneModel` + `oracleNeg` run
(weight `-1 * 2 = -2`). -/
def rowNeg1 : Row := ⟨2, 0, 0, 0, -1, -1, 0, 0, -2⟩

/-- A density evaluator that reads `mass_ratio` from the dict and
returns `1/10000` on the `mass_ratio = 0` candidate, `1` otherwise. -/
def stepModel : ParamDict → ℚ :=
  fun d => if d.lookup "mass_ratio" = some 0 then 1 / 10000 else 1

/-- An oracle whose candidate 0 has `mass_ratio` draw `0` while the
others have `1/2`, and whose acceptance draws are all `1` (so the
acceptance threshold equals `max_prob` exactly). -/
def oracleStep : Oracle :=
  ⟨fun _ key i => if key = "mass_ratio" then (if i = 0 then 0 else 1 / 2) else 0,
   fun _ _ => 1⟩

/-- Candidate 0 of an `oracleStep` batch. -/
def rowStepA : Row := ⟨1, 0, 0, 0, -1, -1, 0, 0, 1 / 10000⟩

/-- Candidates 1.. of an `oracleStep` batch (weight `1`,
`mass_2 = 1/2`). -/
def rowStepB : Row := ⟨1, 1 / 2, 0, 0, -1, -1, 0, 1 / 2, 1⟩

/-- The everywhere-zero stand-in for the external `truncnorm`. -/
noncomputable def tnZero : ℝ → ℝ → ℝ → ℝ → ℝ → ℝ := fun _ _ _ _ _ => 0

/-!
Helper lemmas: the pandas maximum over a list of rationals.
-/

theorem le_foldl_max (a : ℚ) (l : List ℚ) : a ≤ l.foldl max a := by
  induction l generalizing a with
  | nil => exact le_refl a
  | cons y ys ih => exact le_trans (le_max_left a y) (ih (max a y))

theorem le_foldl_max_of_mem {x : ℚ} {l : List ℚ} (a : ℚ) (h : x ∈ l) :
    x ≤ l.foldl max a := by
  induction l generalizing a with
  | nil => cases h
  | cons y ys ih =>
    rcases List.mem_cons.mp h with hx | hx
    · subst hx
      exact le_trans (le_max_right a x) (le_foldl_max (max a x) ys)
    · exact ih (max a y) hx

theorem foldl_max_choice (l : List ℚ) (a : ℚ) : l.foldl max a = a ∨ l.foldl max a ∈ l := by
  induction l generalizing a with
  | nil => exact Or.inl rfl
  | cons y ys ih =>
    rcases ih (max a y) with h | h
    · rcases max_choice a y with hm | hm
      · exact Or.inl (by rw [List.foldl_cons, h, hm])
      · refine Or.inr ?_
        rw [List.foldl_cons, h, hm]
        exact List.mem_cons_self y ys
    · exact Or.inr (List.mem_cons_of_mem y h)

theorem le_listMax {x : ℚ} {l : List ℚ} (h : x ∈ l) : x ≤ listMax l := by
  cases l with
  | nil => cases h
  | cons y ys =>
    rcases List.mem_cons.mp h with hx | hx
    · subst hx
      exact le_foldl_max x ys
    · exact le_foldl_max_of_mem y hx

theorem listMax_mem {l : List ℚ} (h : l ≠ []) : listMax l ∈ l := by
  cases l with
  | nil => exact absurd rfl h
  | cons y ys =>
    rcases foldl_max_choice ys y with hc | hc
    · rw [listMax, hc]
      exact List.mem_cons_self y ys
    · exact List.mem_cons_of_mem y hc

theorem foldl_max_replicate (a x : ℚ) (n : ℕ) :
    (List.replicate n x).foldl max a = if n = 0 then a else max a x := by
  induction n generalizing a with
  | zero => rfl
  | succ m ih =>
    rw [List.replicate_succ, List.foldl_cons, ih (max a x)]
    rcases Nat.eq_zero_or_pos m with hm | hm
    · simp [hm]
    · simp [Nat.pos_iff_ne_zero.mp hm, max_assoc, max_self]

theorem listMax_replicate {n : ℕ} (h : n ≠ 0) (x : ℚ) :
    listMax (List.replicate n x) = x := by
  cases n with
  | zero => exact absurd rfl h
  | succ m =>
    rw [List.replicate_succ, listMax, foldl_max_replicate]
    rcases Nat.eq_zero_or_pos m with hm | hm
    · simp [hm]
    · simp [Nat.pos_iff_ne_zero.mp hm]

/-!
Helper lemmas: the bounds table and the prior batch.
-/

theorem boundFor_mass_1 : boundFor "mass_1" = (1, 100) := by rfl

theorem boundFor_mass_ratio : boundFor "mass_ratio" = (0, 1) := by rfl

theorem boundFor_redshift : boundFor "redshift" = (0, 1.5) := by rfl

theorem boundFor_a_1 : boundFor "a_1" = (0, 1) := by rfl

theorem boundFor_a_2 : boundFor "a_2" = (0, 1) := by rfl

theorem boundFor_cos_tilt_1 : boundFor "cos_tilt_1" = (-1, 1) := by rfl

theorem boundFor_cos_tilt_2 : boundFor "cos_tilt_2" = (-1, 1) := by rfl

theorem length_draw_from_prior (B : ℕ) (u : String → ℕ → ℚ) :
    (_draw_from_prior B u).length = B := by
  simp [_draw_from_prior]

theorem length_rowsAt (model vt : ParamDict → ℚ) (B : ℕ) (o : Oracle) (k : ℕ) :
    (rowsAt model vt B o k).length = B := by
  simp [rowsAt, weightBatch, length_draw_from_prior]

theorem rowsAt_ne_nil (model vt : ParamDict → ℚ) {B : ℕ} (hB : 0 < B) (o : Oracle) (k : ℕ) :
    rowsAt model vt B o k ≠ [] := by
  intro h
  have := length_rowsAt model vt B o k
  rw [h] at this
  simp at this
  omega

theorem mem_rowsAt {model vt : ParamDict → ℚ} {B : ℕ} {o : Oracle} {k : ℕ} {r : Row} :
    r ∈ rowsAt model vt B o k ↔
      ∃ i, i < B ∧ r = weightRow model vt (priorCandidate (o.unit k) i) := by
  simp only [rowsAt, weightBatch, _draw_from_prior, List.map_map, List.mem_map,
    List.mem_range, Function.comp]
  constructor
  · rintro ⟨i, hi, hr⟩
    exact ⟨i, hi, hr.symm⟩
  · rintro ⟨i, hi, hr⟩
    exact ⟨i, hi, hr.symm⟩

theorem weightRow_fields (model vt : ParamDict → ℚ) (c : Candidate) :
    (weightRow model vt c).mass_1 = c.mass_1 ∧
    (weightRow model vt c).mass_ratio = c.mass_ratio ∧
    (weightRow model vt c).mass_2 = c.mass_1 * c.mass_ratio := by
  refine ⟨rfl, rfl, rfl⟩

theorem priorCandidate_mass_ratio (u : String → ℕ → ℚ) (i : ℕ) :
    (priorCandidate u i).mass_ratio = u "mass_ratio" i := by
  show npUniform (boundFor "mass_ratio").1 (boundFor "mass_ratio").2 (u "mass_ratio" i)
    = u "mass_ratio" i
  rw [boundFor_mass_ratio, npUniform]
  ring

theorem priorCandidate_mass_1 (u : String → ℕ → ℚ) (i : ℕ) :
    (priorCandidate u i).mass_1 = 1 + 99 * u "mass_1" i := by
  show npUniform (boundFor "mass_1").1 (boundFor "mass_1").2 (u "mass_1" i)
    = 1 + 99 * u "mass_1" i
  rw [boundFor_mass_1, npUniform]
  ring

/-!
Claim C4: continuity of the three-piece power law at its break masses.
-/

/-- C4: for positive break masses the `alpha_1` piece and the rescaled
`alpha_dip` piece agree at `mass = NSmax`, and the rescaled `alpha_dip`
and `alpha_2` pieces agree at `mass = BHmin`, for all exponents. -/
theorem plaw_continuous_at_breaks (NSmax BHmin alpha_1 alpha_2 alpha_dip : ℝ)
    (hNS : 0 < NSmax) (hBH : 0 < BHmin) :
    plawPiece1 NSmax alpha_1 = plawPiece2 NSmax NSmax alpha_1 alpha_dip ∧
    plawPiece2 BHmin NSmax alpha_1 alpha_dip =
      plawPiece3 BHmin NSmax BHmin alpha_1 alpha_2 alpha_dip := by
  constructor
  · rw [plawPiece1, plawPiece2, ← Real.rpow_add hNS]
    congr 1
    ring
  · rw [plawPiece2, plawPiece3, mul_right_comm, ← Real.rpow_add hBH]
    congr 2
    ring

/-- Witness for C4 at `NSmax = 2`, `BHmin = 4`, exponents `1, 5, 3`. -/
theorem plaw_continuous_at_breaks_witness :
    plawPiece1 2 1 = plawPiece2 2 2 1 3 ∧
    plawPiece2 4 2 1 3 = plawPiece3 4 2 4 1 5 3 :=
  plaw_continuous_at_breaks 2 4 1 5 3 (by norm_num) (by norm_num)

/-!
Claim C5: the independent joint mass density.
-/

/-- C5: the independent joint density is `2 * p(m1) * p(m2)` on the
ordered region `mass_1 >= mass_2` away from the hard-zeroed
no-injection region, is `0` wherever `mass_1 < mass_2`, and is `0`
wherever `mass_1 > 60` and `mass_2 < 3`. -/
theorem independent_joint_form (tn : ℝ → ℝ → ℝ → ℝ → ℝ → ℝ)
    (mass_1 mass_2 A A2 NSmin NSmax BHmin BHmax UPPERmin UPPERmax n0 n1 n2 n3 n4 n5
      alpha_1 alpha_2 alpha_dip mu1 sig1 mix1 mu2 sig2 mix2 amin amax : ℝ) :
    (mass_2 ≤ mass_1 → ¬(60 < mass_1 ∧ mass_2 < 3) →
      matter_matters_primary_secondary_independent tn mass_1 mass_2 A A2 NSmin NSmax BHmin
          BHmax UPPERmin UPPERmax n0 n1 n2 n3 n4 n5 alpha_1 alpha_2 alpha_dip mu1 sig1 mix1
          mu2 sig2 mix2 amin amax =
        2 * power_law_dip_break_1d tn mass_1 A A2 NSmin NSmax BHmin BHmax UPPERmin UPPERmax
            n0 n1 n2 n3 n4 n5 alpha_1 alpha_2 alpha_dip mu1 sig1 mix1 mu2 sig2 mix2 amin
            amax *
          power_law_dip_break_1d tn mass_2 A A2 NSmin NSmax BHmin BHmax UPPERmin UPPERmax
            n0 n1 n2 n3 n4 n5 alpha_1 alpha_2 alpha_dip mu1 sig1 mix1 mu2 sig2 mix2 amin
            amax) ∧
    (mass_1 < mass_2 →
      matter_matters_primary_secondary_independent tn mass_1 mass_2 A A2 NSmin NSmax BHmin
        BHmax UPPERmin UPPERmax n0 n1 n2 n3 n4 n5 alpha_1 alpha_2 alpha_dip mu1 sig1 mix1
        mu2 sig2 mix2 amin amax = 0) ∧
    (60 < mass_1 → mass_2 < 3 →
      matter_matters_primary_secondary_independent tn mass_1 mass_2 A A2 NSmin NSmax BHmin
        BHmax UPPERmin UPPERmax n0 n1 n2 n3 n4 n5 alpha_1 alpha_2 alpha_dip mu1 sig1 mix1
        mu2 sig2 mix2 amin amax = 0) := by
  refine ⟨?_, ?_, ?_⟩
  · intro hord hmask
    simp only [matter_matters_primary_secondary_independent, _primary_secondary_general]
    rw [if_neg hmask, if_pos hord]
    ring
  · intro hlt
    simp only [matter_matters_primary_secondary_independent, _primary_secondary_general]
    rw [if_neg (not_le.mpr hlt)]
    split
    · rfl
    · ring
  · intro h1 h2
    simp only [matter_matters_primary_secondary_independent, _primary_secondary_general]
    rw [if_pos ⟨h1, h2⟩]

/-- Witness for C5 at `(5, 4)` (product form), `(4, 5)` (ordering zero)
and `(70, 2)` (no-injection zero), with all hyperparameters `0` and the
zero `truncnorm`. -/
theorem independent_joint_form_witness :
    (matter_matters_primary_secondary_independent tnZero 5 4 0 0 0 0 0 0 0 0 0 0 0 0 0 0
        0 0 0 0 0 0 0 0 0 0 0 =
      2 * power_law_dip_break_1d tnZero 5 0 0 0 0 0 0 0 0 0 0 0 0 0 0 0 0 0 0 0 0 0 0 0
          0 0 *
        power_law_dip_break_1d tnZero 4 0 0 0 0 0 0 0 0 0 0 0 0 0 0 0 0 0 0 0 0 0 0 0 0
          0) ∧
    matter_matters_primary_secondary_independent tnZero 4 5 0 0 0 0 0 0 0 0 0 0 0 0 0 0 0
      0 0 0 0 0 0 0 0 0 0 = 0 ∧
    matter_matters_primary_secondary_independent tnZero 70 2 0 0 0 0 0 0 0 0 0 0 0 0 0 0
      0 0 0 0 0 0 0 0 0 0 0 = 0 :=
  ⟨(independent_joint_form tnZero 5 4 0 0 0 0 0 0 0 0 0 0 0 0 0 0 0 0 0 0 0 0 0 0 0 0
      0).1 (by norm_num) (by norm_num),
   (independent_joint_form tnZero 4 5 0 0 0 0 0 0 0 0 0 0 0 0 0 0 0 0 0 0 0 0 0 0 0 0
      0).2.1 (by norm_num),
   (independent_joint_form tnZero 70 2 0 0 0 0 0 0 0 0 0 0 0 0 0 0 0 0 0 0 0 0 0 0 0 0
      0).2.2 (by norm_num) (by norm_num)⟩

/-!
Claim C6: the pairing variant coincides with the independent variant at
mass ratio one.
-/

/-- C6: at any point with `mass_2 = mass_1` (and `mass_1` nonzero, so the
mass ratio is exactly one) the pairing joint density equals the
independent joint density, whichever side of `mbreak` selects the
pairing slope. -/
theorem pairing_matches_independent_at_unit_ratio (tn : ℝ → ℝ → ℝ → ℝ → ℝ → ℝ)
    (mass_1 mass_2 A A2 NSmin NSmax BHmin BHmax UPPERmin UPPERmax n0 n1 n2 n3 n4 n5
      alpha_1 alpha_2 alpha_dip mu1 sig1 mix1 mu2 sig2 mix2 amin amax
      mbreak beta_pair_1 beta_pair_2 : ℝ) (h1 : mass_1 ≠ 0) (heq : mass_2 = mass_1) :
    matter_matters_pairing tn mass_1 mass_2 A A2 NSmin NSmax BHmin BHmax UPPERmin UPPERmax
        n0 n1 n2 n3 n4 n5 alpha_1 alpha_2 alpha_dip mu1 sig1 mix1 mu2 sig2 mix2 amin amax
        mbreak beta_pair_1 beta_pair_2 =
      matter_matters_primary_secondary_independent tn mass_1 mass_2 A A2 NSmin NSmax BHmin
        BHmax UPPERmin UPPERmax n0 n1 n2 n3 n4 n5 alpha_1 alpha_2 alpha_dip mu1 sig1 mix1
        mu2 sig2 mix2 amin amax := by
  subst heq
  simp only [matter_matters_pairing, matter_matters_primary_secondary_independent,
    _primary_secondary_plaw_pairing, div_self h1, Real.one_rpow, mul_one]

/-- Witness for C6 at `mass_1 = mass_2 = 5` with pairing slopes `1` and
`3` breaking at `2`. -/
theorem pairing_matches_independent_at_unit_ratio_witness :
    matter_matters_pairing tnZero 5 5 0 0 0 0 0 0 0 0 0 0 0 0 0 0 0 0 0 0 0 0 0 0 0 0 0
        2 1 3 =
      matter_matters_primary_secondary_independent tnZero 5 5 0 0 0 0 0 0 0 0 0 0 0 0 0 0
        0 0 0 0 0 0 0 0 0 0 0 :=
  pairing_matches_independent_at_unit_ratio tnZero 5 5 0 0 0 0 0 0 0 0 0 0 0 0 0 0 0 0 0
    0 0 0 0 0 0 0 0 2 1 3 (by norm_num) rfl

/-!
Claim C7: input validation of the entry point.
-/

/-- C7: a non-positive target count fails with the invalid-argument
error, and (for a positive count) any supplied custom selection-function
evaluator fails with the unsupported-feature error; both results are
independent of the density model, the oracle and the fuel, so no
sampling iteration is started. -/
theorem draw_true_values_validation (model : ParamDict → ℚ)
    (vt_model : Option (ParamDict → ℚ)) (n_samples : ℤ) (o : Oracle) (fuel : ℕ) :
    (n_samples ≤ 0 → draw_true_values model vt_model n_samples o fuel =
      .error (.invalidArgument "n_samples must be positive.")) ∧
    (0 < n_samples → ∀ v, draw_true_values model (some v) n_samples o fuel =
      .error (.unsupportedFeature "Custom VT models are not yet implemented.")) := by
  constructor
  · intro h
    unfold draw_true_values
    rw [if_pos h]
  · intro h v
    unfold draw_true_values
    rw [if_neg (not_le.mpr h)]

/-- Witness for C7: `n_samples = 0` and a custom selection function at
`n_samples = 1`. -/
theorem draw_true_values_validation_witness :
    ((0 : ℤ) ≤ 0 ∧ draw_true_values oneModel none 0 zeroOracle 3 =
      .error (.invalidArgument "n_samples must be positive.")) ∧
    ((0 : ℤ) < 1 ∧ draw_true_values oneModel (some vtOne) 1 zeroOracle 3 =
      .error (.unsupportedFeature "Custom VT models are not yet implemented.")) :=
  ⟨⟨le_refl 0, (draw_true_values_validation oneModel none 0 zeroOracle 3).1 (le_refl 0)⟩,
   ⟨by norm_num,
    (draw_true_values_validation oneModel (some vtOne) 1 zeroOracle 3).2 (by norm_num)
      vtOne⟩⟩

/-!
Projection lemmas for the iteration state (each is definitional).
-/

theorem iterState_rows (model vt : ParamDict → ℚ) (B : ℕ) (o : Oracle) (k : ℕ)
    (pool : List Row) : (iterState model vt B o k pool).rows = rowsAt model vt B o k := rfl

theorem iterState_pool2 (model vt : ParamDict → ℚ) (B : ℕ) (o : Oracle) (k : ℕ)
    (pool : List Row) :
    (iterState model vt B o k pool).pool2 = pool ++ rowsAt model vt B o k := rfl

theorem iterState_maxp (model vt : ParamDict → ℚ) (B : ℕ) (o : Oracle) (k : ℕ)
    (pool : List Row) :
    (iterState model vt B o k pool).maxp = poolMax (pool ++ rowsAt model vt B o k) := rfl

theorem iterState_pool3 (model vt : ParamDict → ℚ) (B : ℕ) (o : Oracle) (k : ℕ)
    (pool : List Row) :
    (iterState model vt B o k pool).pool3 =
      (pool ++ rowsAt model vt B o k).filter
        (fun r => r.prob > poolMax (pool ++ rowsAt model vt B o k) / (B : ℚ)) := rfl

theorem iterState_draws (model vt : ParamDict → ℚ) (B : ℕ) (o : Oracle) (k : ℕ)
    (pool : List Row) :
    (iterState model vt B o k pool).draws =
      (List.range (iterState model vt B o k pool).pool3.length).map
        (fun i => npUniform 0 (iterState model vt B o k pool).maxp (o.accept k i)) := rfl

theorem iterState_keep (model vt : ParamDict → ℚ) (B : ℕ) (o : Oracle) (k : ℕ)
    (pool : List Row) :
    (iterState model vt B o k pool).keep =
      List.zipWith (fun r d => decide (r.prob ≥ d)) (iterState model vt B o k pool).pool3
        (iterState model vt B o k pool).draws := rfl

theorem iterState_accepted (model vt : ParamDict → ℚ) (B : ℕ) (o : Oracle) (k : ℕ)
    (pool : List Row) :
    (iterState model vt B o k pool).accepted =
      (((iterState model vt B o k pool).pool3.zip (iterState model vt B o k pool).keep).filter
        (fun p => p.2)).map (fun p => p.1) := rfl

theorem weightRow_prob (model vt : ParamDict → ℚ) (c : Candidate) :
    (weightRow model vt c).prob =
      model (weightRow model vt c).toDict * c.mass_1 * vt (weightRow model vt c).toDict := rfl

/-!
Claim C8: how the redshift column is generated.
-/

/-- C8 (amended): the bilby `Uniform` rescaling map coincides pointwise
with the numpy uniform map over the same bounds, and the redshift column
of a prior batch is exactly the plain uniform draw over `(0, 1.5)`
applied to the bilby unit draws; the redshift code path differs from the
other parameters but the generated distribution is the same uniform. -/
theorem redshift_prior_is_plain_uniform :
    (∀ lo hi u : ℚ, bilbyUniformSample lo hi u = npUniform lo hi u) ∧
    (∀ (B : ℕ) (u : String → ℕ → ℚ),
      (_draw_from_prior B u).map Candidate.redshift =
        (List.range B).map fun i => npUniform 0 1.5 (u "redshift_unit" i)) := by
  constructor
  · intro lo hi u
    rw [bilbyUniformSample, npUniform]
    ring
  · intro B u
    rw [_draw_from_prior, List.map_map]
    apply List.map_congr_left
    intro i _
    show (priorCandidate u i).redshift = npUniform 0 1.5 (u "redshift_unit" i)
    show bilbyUniformSample (boundFor "redshift").1 (boundFor "redshift").2
      (u "redshift_unit" i) = npUniform 0 1.5 (u "redshift_unit" i)
    rw [boundFor_redshift, bilbyUniformSample, npUniform]
    ring

/-- C8 counterexample (negation of the claimed distributional
difference): as a function of its unit draw, the declared bilby redshift
prior over the `BOUNDS` redshift entry is identical to the plain numpy
uniform draw over the same entry, so the redshift-generating
distribution does not differ from a plain uniform draw. -/
theorem redshift_draw_equals_plain_uniform :
    bilbyUniformSample (boundFor "redshift").1 (boundFor "redshift").2 =
      npUniform (boundFor "redshift").1 (boundFor "redshift").2 := by
  funext u
  rw [bilbyUniformSample, npUniform]
  ring

/-!
Claim C9: an everywhere non-positive density makes the loop run forever.
-/

theorem iterState_empty_pool3 (model vt : ParamDict → ℚ) {B : ℕ} (hB : 1 ≤ B) (o : Oracle)
    (k : ℕ) (hw : ∀ r ∈ rowsAt model vt B o k, r.prob ≤ 0) :
    (iterState model vt B o k []).pool3 = [] := by
  have hB0 : (0 : ℚ) < (B : ℚ) := by
    have h : 0 < B := by omega
    exact_mod_cast h
  have hB1 : (1 : ℚ) ≤ (B : ℚ) := by exact_mod_cast hB
  have hrne : rowsAt model vt B o k ≠ [] := rowsAt_ne_nil model vt (by omega) o k
  have hpm : poolMax (rowsAt model vt B o k) ≤ 0 := by
    rw [poolMax]
    have hmem : listMax ((rowsAt model vt B o k).map Row.prob) ∈
        (rowsAt model vt B o k).map Row.prob := listMax_mem (by simpa using hrne)
    rcases List.mem_map.mp hmem with ⟨r, hr, hrp⟩
    rw [← hrp]
    exact hw r hr
  rw [iterState_pool3, List.nil_append, List.filter_eq_nil_iff]
  intro r hr
  simp only [decide_eq_true_eq, not_lt, gt_iff_lt]
  have h1 : r.prob ≤ poolMax (rowsAt model vt B o k) :=
    le_listMax (List.mem_map_of_mem Row.prob hr)
  have h2 : poolMax (rowsAt model vt B o k) ≤ poolMax (rowsAt model vt B o k) / (B : ℚ) := by
    rw [le_div_iff₀ hB0]
    nlinarith
  exact le_trans h1 h2

theorem sampleLoop_none_of_nonpos (model vt : ParamDict → ℚ) (B n : ℕ) (o : Oracle)
    (hn : 1 ≤ n) (hB : 1 ≤ B)
    (hw : ∀ k, ∀ r ∈ rowsAt model vt B o k, r.prob ≤ 0) :
    ∀ fuel k, sampleLoop model vt B n o fuel [] k = none := by
  intro fuel
  induction fuel with
  | zero => intro k; rfl
  | succ f ih =>
    intro k
    have h3 := iterState_empty_pool3 model vt hB o k (hw k)
    have hacc : (iterState model vt B o k []).accepted = [] := by
      rw [iterState_accepted, h3]
      rfl
    simp only [sampleLoop]
    rw [hacc, h3]
    simp only [List.length_nil]
    rw [if_neg (by omega)]
    exact ih (k + 1)

/-- C9: with a density evaluator that is non-positive everywhere (and
legal non-negative unit draws), `draw_true_values` raises no error and,
for every finite number of loop iterations, has not yet produced a
result: the pruned pool is emptied every iteration and no acceptance
count is ever reached. -/
theorem degenerate_density_never_returns (model : ParamDict → ℚ) (n_samples : ℤ)
    (o : Oracle) (hn : 0 < n_samples) (hm : ∀ d, model d ≤ 0)
    (hu : ∀ k key i, 0 ≤ o.unit k key i) :
    ∀ fuel, draw_true_values model none n_samples o fuel = .ok none := by
  intro fuel
  unfold draw_true_values
  rw [if_neg (not_le.mpr hn)]
  have hn1 : 1 ≤ n_samples.toNat := by omega
  have hB1 : 1 ≤ n_samples.toNat * 10000 := by omega
  have hw : ∀ k, ∀ r ∈ rowsAt model (fun _ => 1) (n_samples.toNat * 10000) o k,
      r.prob ≤ 0 := by
    intro k r hr
    rcases mem_rowsAt.mp hr with ⟨i, _, hre⟩
    subst hre
    rw [weightRow_prob, mul_one]
    have hmass : 0 ≤ (priorCandidate (o.unit k) i).mass_1 := by
      rw [priorCandidate_mass_1]
      have := hu k "mass_1" i
      nlinarith
    exact mul_nonpos_iff.mpr (Or.inr ⟨hm _, hmass⟩)
  show Except.ok (sampleLoop model (fun _ => 1) (n_samples.toNat * 10000) n_samples.toNat
    o fuel [] 0) = Except.ok none
  rw [sampleLoop_none_of_nonpos model (fun _ => 1) (n_samples.toNat * 10000)
    n_samples.toNat o hn1 hB1 hw fuel 0]

/-- Witness for C9: the constant `-1` evaluator with target count 1 and
the all-zero oracle never returns, here checked at fuel 5. -/
theorem degenerate_density_never_returns_witness :
    (0 : ℤ) < 1 ∧ draw_true_values negOneModel none 1 zeroOracle 5 = .ok none :=
  ⟨by norm_num,
   degenerate_density_never_returns negOneModel 1 zeroOracle (by norm_num)
     (fun d => by rw [negOneModel]; norm_num) (fun k key i => le_refl 0) 5⟩

/-!
Claim C1: shape and row properties of a returned sample set.
-/

theorem sampleLoop_result_shape (model vt : ParamDict → ℚ) (B n : ℕ) (o : Oracle)
    (hq : ∀ k i, 0 ≤ o.unit k "mass_ratio" i ∧ o.unit k "mass_ratio" i < 1) :
    ∀ fuel pool k t,
      (∀ r ∈ pool,
        r.mass_2 = r.mass_1 * r.mass_ratio ∧ 0 ≤ r.mass_ratio ∧ r.mass_ratio < 1) →
      sampleLoop model vt B n o fuel pool k = some t →
      t.length = n ∧
        ∀ e ∈ t, e.mass_2 = e.mass_1 * e.mass_ratio ∧ 0 ≤ e.mass_ratio ∧ e.mass_ratio < 1 := by
  intro fuel
  induction fuel with
  | zero => intro pool k t _ h; exact Option.noConfusion h
  | succ f ih =>
    intro pool k t hpool hrun
    have hrows : ∀ r ∈ rowsAt model vt B o k,
        r.mass_2 = r.mass_1 * r.mass_ratio ∧ 0 ≤ r.mass_ratio ∧ r.mass_ratio < 1 := by
      intro r hr
      rcases mem_rowsAt.mp hr with ⟨i, _, hre⟩
      subst hre
      refine ⟨rfl, ?_, ?_⟩
      · show (0 : ℚ) ≤ (priorCandidate (o.unit k) i).mass_ratio
        rw [priorCandidate_mass_ratio]
        exact (hq k i).1
      · show (priorCandidate (o.unit k) i).mass_ratio < 1
        rw [priorCandidate_mass_ratio]
        exact (hq k i).2
    have hpool2 : ∀ r ∈ pool ++ rowsAt model vt B o k,
        r.mass_2 = r.mass_1 * r.mass_ratio ∧ 0 ≤ r.mass_ratio ∧ r.mass_ratio < 1 := by
      intro r hr
      rcases List.mem_append.mp hr with h | h
      · exact hpool r h
      · exact hrows r h
    have hpool3 : ∀ r ∈ (iterState model vt B o k pool).pool3,
        r.mass_2 = r.mass_1 * r.mass_ratio ∧ 0 ≤ r.mass_ratio ∧ r.mass_ratio < 1 := by
      intro r hr
      rw [iterState_pool3] at hr
      exact hpool2 r (List.mem_of_mem_filter hr)
    simp only [sampleLoop] at hrun
    split at hrun
    case isTrue hlen =>
      injection hrun with ht
      constructor
      · rw [← ht, List.length_map, List.length_take]
        exact min_eq_left hlen
      · intro e he
        rw [← ht] at he
        rcases List.mem_map.mp he with ⟨r, hr, hre⟩
        have hr' : r ∈ (iterState model vt B o k pool).accepted :=
          List.take_subset n _ hr
        have hr3 : r ∈ (iterState model vt B o k pool).pool3 := by
          rw [iterState_accepted] at hr'
          rcases List.mem_map.mp hr' with ⟨p, hp, hpe⟩
          have hz := List.mem_of_mem_filter hp
          exact hpe ▸ (List.of_mem_zip hz).1
        have hinv := hpool3 r hr3
        rw [← hre]
        exact hinv
    case isFalse =>
      exact ih (iterState model vt B o k pool).pool3 (k + 1) t hpool3 hrun

/-- C1 (amended): whenever the entry point terminates and returns a
table (for a density evaluator, positive target count and unit draws in
the legal `[0, 1)` range), the table has exactly `n_samples` rows, and
every row satisfies `mass_2 = mass_1 * mass_ratio` exactly and
`mass_ratio ∈ [0, 1)` (numpy's half-open uniform: `0` is includable,
`1` is not). -/
theorem draw_true_values_shape (model : ParamDict → ℚ) (n_samples : ℤ) (o : Oracle)
    (fuel : ℕ) (t : List Event)
    (hq : ∀ k i, 0 ≤ o.unit k "mass_ratio" i ∧ o.unit k "mass_ratio" i < 1)
    (h : draw_true_values model none n_samples o fuel = .ok (some t)) :
    t.length = n_samples.toNat ∧
      ∀ e ∈ t, e.mass_2 = e.mass_1 * e.mass_ratio ∧ 0 ≤ e.mass_ratio ∧ e.mass_ratio < 1 := by
  unfold draw_true_values at h
  by_cases hn : n_samples ≤ 0
  · rw [if_pos hn] at h
    exact Except.noConfusion h
  · rw [if_neg hn] at h
    have h2 : (Except.ok (sampleLoop model (fun _ => 1) (n_samples.toNat * 10000)
        n_samples.toNat o fuel [] 0) : Except SamplerError (Option (List Event))) =
        Except.ok (some t) := h
    injection h2 with h'
    exact sampleLoop_result_shape model (fun _ => 1) (n_samples.toNat * 10000)
      n_samples.toNat o hq fuel [] 0 t (fun r hr => absurd hr (List.not_mem_nil r)) h'

/-!
A fully computed run: the constant-1 density with the all-zero oracle,
target count 1, batch size 10000, terminating in its first iteration.
-/

theorem priorCandidate_zero (k i : ℕ) : priorCandidate (zeroOracle.unit k) i = cZero := by
  simp only [priorCandidate, zeroOracle, boundFor_mass_1, boundFor_mass_ratio, boundFor_a_1,
    boundFor_a_2, boundFor_cos_tilt_1, boundFor_cos_tilt_2, boundFor_redshift, npUniform,
    bilbyUniformSample, cZero, Candidate.mk.injEq]
  norm_num

theorem weightRow_one_cZero : weightRow oneModel (fun _ => 1) cZero = rowZero 1 := by
  simp only [weightRow, oneModel, cZero, rowZero, Row.mk.injEq]
  norm_num

theorem rowsAt_zero (k : ℕ) :
    rowsAt oneModel (fun _ => 1) 10000 zeroOracle k = List.replicate 10000 (rowZero 1) := by
  rw [rowsAt, _draw_from_prior, weightBatch, List.map_map]
  have h1 : (List.range 10000).map
        (weightRow oneModel (fun _ => 1) ∘ priorCandidate (zeroOracle.unit k)) =
      (List.range 10000).map (fun _ => rowZero 1) :=
    List.map_congr_left (fun i _ => by
      show weightRow oneModel (fun _ => 1) (priorCandidate (zeroOracle.unit k) i) = rowZero 1
      rw [priorCandidate_zero, weightRow_one_cZero])
  rw [h1, List.map_const', List.length_range]

theorem maxp_zero_run : (iterState oneModel (fun _ => 1) 10000 zeroOracle 0 []).maxp = 1 := by
  rw [iterState_maxp, List.nil_append, rowsAt_zero, poolMax, List.map_replicate,
    listMax_replicate (by norm_num)]
  rfl

theorem pool3_zero_run :
    (iterState oneModel (fun _ => 1) 10000 zeroOracle 0 []).pool3 =
      List.replicate 10000 (rowZero 1) := by
  rw [iterState_pool3, List.nil_append, rowsAt_zero, poolMax, List.map_replicate,
    listMax_replicate (by norm_num), List.filter_replicate]
  norm_num [rowZero]

theorem draws_zero_run :
    (iterState oneModel (fun _ => 1) 10000 zeroOracle 0 []).draws =
      List.replicate 10000 0 := by
  rw [iterState_draws, pool3_zero_run, maxp_zero_run, List.length_replicate]
  have h1 : (List.range 10000).map (fun i => npUniform 0 1 (zeroOracle.accept 0 i)) =
      (List.range 10000).map (fun _ => (0 : ℚ)) :=
    List.map_congr_left (fun i _ => by
      show npUniform 0 1 0 = 0
      rw [npUniform]
      ring)
  rw [h1, List.map_const', List.length_range]

theorem keep_zero_run :
    (iterState oneModel (fun _ => 1) 10000 zeroOracle 0 []).keep =
      List.replicate 10000 true := by
  rw [iterState_keep, pool3_zero_run, draws_zero_run, List.zipWith_replicate, min_self]
  norm_num [rowZero]

theorem accepted_zero_run :
    (iterState oneModel (fun _ => 1) 10000 zeroOracle 0 []).accepted =
      List.replicate 10000 (rowZero 1) := by
  rw [iterState_accepted, pool3_zero_run, keep_zero_run, List.zip_replicate, min_self,
    List.filter_replicate]
  norm_num

theorem sampleLoop_zero_run :
    sampleLoop oneModel (fun _ => 1) 10000 1 zeroOracle 1 [] 0 = some [eZero] := by
  show sampleLoop oneModel (fun _ => 1) 10000 1 zeroOracle (0 + 1) [] 0 = some [eZero]
  simp only [sampleLoop]
  rw [accepted_zero_run, List.length_replicate, if_pos (by norm_num), List.take_replicate,
    show min 1 10000 = 1 from by norm_num]
  rfl

theorem draw_true_values_zero_run :
    draw_true_values oneModel none 1 zeroOracle 1 = .ok (some [eZero]) := by
  unfold draw_true_values
  rw [if_neg (by norm_num)]
  show Except.ok (sampleLoop oneModel (fun _ => 1) ((1 : ℤ).toNat * 10000) (1 : ℤ).toNat
    zeroOracle 1 [] 0) = Except.ok (some [eZero])
  rw [show (1 : ℤ).toNat * 10000 = 10000 from rfl, show (1 : ℤ).toNat = 1 from rfl,
    sampleLoop_zero_run]

/-- C1 counterexample: a terminating run of the entry point (constant
positive density, `n_samples = 1`) whose returned row has
`mass_ratio = 0`, which is not in the claimed interval `(0, 1]`. -/
theorem returned_mass_ratio_can_be_zero :
    draw_true_values oneModel none 1 zeroOracle 1 = .ok (some [eZero]) ∧
    ¬(0 < eZero.mass_ratio ∧ eZero.mass_ratio ≤ 1) :=
  ⟨draw_true_values_zero_run, by norm_num [eZero]⟩

/-- Witness for C1 on the fully computed run. -/
theorem draw_true_values_shape_witness :
    [eZero].length = (1 : ℤ).toNat ∧
      ∀ e ∈ [eZero],
        e.mass_2 = e.mass_1 * e.mass_ratio ∧ 0 ≤ e.mass_ratio ∧ e.mass_ratio < 1 :=
  draw_true_values_shape oneModel 1 zeroOracle 1 [eZero]
    (fun k i => ⟨le_refl 0, by show (0 : ℚ) < 1; norm_num⟩) draw_true_values_zero_run

/-!
The per-iteration pool and maximum of a run started from the empty pool.
-/

theorem poolIter_zero (model vt : ParamDict → ℚ) (B : ℕ) (o : Oracle) :
    poolIter model vt B o 0 = [] := rfl

theorem pool2At_eq (model vt : ParamDict → ℚ) (B : ℕ) (o : Oracle) (k : ℕ) :
    pool2At model vt B o k = poolIter model vt B o k ++ rowsAt model vt B o k := rfl

theorem maxpIter_eq (model vt : ParamDict → ℚ) (B : ℕ) (o : Oracle) (k : ℕ) :
    maxpIter model vt B o k = poolMax (pool2At model vt B o k) := rfl

theorem poolIter_succ (model vt : ParamDict → ℚ) (B : ℕ) (o : Oracle) (k : ℕ) :
    poolIter model vt B o (k + 1) =
      (pool2At model vt B o k).filter
        (fun r => r.prob > maxpIter model vt B o k / (B : ℚ)) := rfl

theorem pool2At_ne_nil (model vt : ParamDict → ℚ) {B : ℕ} (hB : 0 < B) (o : Oracle)
    (k : ℕ) : pool2At model vt B o k ≠ [] := by
  intro h
  have hlen := congrArg List.length h
  rw [pool2At_eq, List.length_append, length_rowsAt, List.length_nil] at hlen
  omega

theorem prob_le_maxpIter (model vt : ParamDict → ℚ) (B : ℕ) (o : Oracle) (k : ℕ) {r : Row}
    (hr : r ∈ pool2At model vt B o k) : r.prob ≤ maxpIter model vt B o k := by
  rw [maxpIter_eq, poolMax]
  exact le_listMax (List.mem_map_of_mem Row.prob hr)

theorem maxpIter_mem (model vt : ParamDict → ℚ) (B : ℕ) (o : Oracle) (k : ℕ) (hB : 0 < B) :
    maxpIter model vt B o k ∈ (pool2At model vt B o k).map Row.prob := by
  rw [maxpIter_eq, poolMax]
  refine listMax_mem ?_
  simpa using pool2At_ne_nil model vt hB o k

theorem maxp_survives (model vt : ParamDict → ℚ) (B : ℕ) (o : Oracle) (k : ℕ)
    (hB : 2 ≤ B) (hpos : 0 < maxpIter model vt B o k) :
    ∃ r, r ∈ poolIter model vt B o (k + 1) ∧ r.prob = maxpIter model vt B o k := by
  rcases List.mem_map.mp (maxpIter_mem model vt B o k (by omega)) with ⟨r, hr, hrp⟩
  refine ⟨r, ?_, hrp⟩
  rw [poolIter_succ, List.mem_filter]
  refine ⟨hr, ?_⟩
  rw [decide_eq_true_eq, gt_iff_lt, hrp]
  have h1B : 1 < B := by omega
  refine div_lt_self hpos ?_
  exact_mod_cast h1B

theorem poolIter_nonneg (model vt : ParamDict → ℚ) (B : ℕ) (o : Oracle)
    (hw : ∀ k, ∀ r ∈ rowsAt model vt B o k, 0 ≤ r.prob) :
    ∀ k, ∀ r ∈ poolIter model vt B o k, 0 ≤ r.prob := by
  intro k
  induction k with
  | zero =>
    intro r hr
    rw [poolIter_zero] at hr
    cases hr
  | succ j ihj =>
    intro r hr
    rw [poolIter_succ, List.mem_filter, pool2At_eq] at hr
    rcases List.mem_append.mp hr.1 with h | h
    · exact ihj r h
    · exact hw j r h

theorem maxpIter_succ_of_pos (model vt : ParamDict → ℚ) (B : ℕ) (o : Oracle) (k : ℕ)
    (hB : 2 ≤ B) (hpos : 0 < maxpIter model vt B o k) :
    maxpIter model vt B o (k + 1) =
      max (maxpIter model vt B o k) (poolMax (rowsAt model vt B o (k + 1))) := by
  have hB0 : 0 < B := by omega
  apply le_antisymm
  · rcases List.mem_map.mp (maxpIter_mem model vt B o (k + 1) hB0) with ⟨r, hr, hrp⟩
    rw [← hrp]
    rw [pool2At_eq] at hr
    rcases List.mem_append.mp hr with h | h
    · have hmem : r ∈ pool2At model vt B o k := by
        rw [poolIter_succ] at h
        exact List.mem_of_mem_filter h
      exact le_trans (prob_le_maxpIter model vt B o k hmem) (le_max_left _ _)
    · refine le_trans ?_ (le_max_right _ _)
      rw [poolMax]
      exact le_listMax (List.mem_map_of_mem Row.prob h)
  · apply max_le
    · rcases maxp_survives model vt B o k hB hpos with ⟨r, hr, hrp⟩
      rw [← hrp]
      apply prob_le_maxpIter model vt B o (k + 1)
      rw [pool2At_eq]
      exact List.mem_append_left _ hr
    · have hne : rowsAt model vt B o (k + 1) ≠ [] := rowsAt_ne_nil model vt hB0 o (k + 1)
      have hmem : poolMax (rowsAt model vt B o (k + 1)) ∈
          (rowsAt model vt B o (k + 1)).map Row.prob := by
        rw [poolMax]
        exact listMax_mem (by simpa using hne)
      rcases List.mem_map.mp hmem with ⟨r, hr, hrp⟩
      rw [← hrp]
      apply prob_le_maxpIter model vt B o (k + 1)
      rw [pool2At_eq]
      exact List.mem_append_right _ hr

theorem keepAt_eq (model vt : ParamDict → ℚ) (B : ℕ) (o : Oracle) (k : ℕ) :
    keepAt model vt B o k =
      List.zipWith (fun r d => decide (r.prob ≥ d)) (poolIter model vt B o (k + 1))
        ((List.range (poolIter model vt B o (k + 1)).length).map
          (fun j => npUniform 0 (maxpIter model vt B o k) (o.accept k j))) := rfl

theorem keepAt_getD (model vt : ParamDict → ℚ) (B : ℕ) (o : Oracle) (k : ℕ) (i : ℕ)
    (hi : i < (poolIter model vt B o (k + 1)).length) :
    ((keepAt model vt B o k).getD i false = true ↔
      npUniform 0 (maxpIter model vt B o k) (o.accept k i) ≤
        ((poolIter model vt B o (k + 1)).getD i default).prob) := by
  rw [keepAt_eq]
  have hlenz : i < (List.zipWith (fun r d => decide (r.prob ≥ d))
      (poolIter model vt B o (k + 1))
      ((List.range (poolIter model vt B o (k + 1)).length).map
        (fun j => npUniform 0 (maxpIter model vt B o k) (o.accept k j)))).length := by
    rw [List.length_zipWith, List.length_map, List.length_range, min_self]
    exact hi
  rw [List.getD_eq_getElem?_getD, List.getElem?_eq_getElem hlenz, Option.getD_some,
    List.getElem_zipWith, List.getElem_map, List.getElem_range]
  rw [List.getD_eq_getElem?_getD, List.getElem?_eq_getElem hi, Option.getD_some]
  rw [decide_eq_true_eq, ge_iff_le]

/-!
Claim C2: what the acceptance-test step does in every iteration.
-/

/-- C2 (amended): in every iteration of the sampler loop, (i) the newly
weighted candidates are appended to the carried pool; (ii) the
acceptance `max_prob` is the maximum weight of that extended pool (it is
attained, and equals `max(previous max_prob, new-batch maximum)`
whenever the previous `max_prob` is positive); (iii) the next carried
pool retains exactly the candidates whose weight is strictly above
`max_prob / B` — a weight exactly equal to the floor is discarded; and
(iv) every pooled candidate is re-tested against a fresh uniform
threshold `max_prob * u`, passing if and only if its weight is greater
than *or equal to* its draw. -/
theorem accept_test_step (model vt : ParamDict → ℚ) (B : ℕ) (o : Oracle) (k : ℕ)
    (hB : 2 ≤ B) :
    pool2At model vt B o k = poolIter model vt B o k ++ rowsAt model vt B o k ∧
    (∀ r ∈ pool2At model vt B o k, r.prob ≤ maxpIter model vt B o k) ∧
    maxpIter model vt B o k ∈ (pool2At model vt B o k).map Row.prob ∧
    (∀ r : Row, r ∈ poolIter model vt B o (k + 1) ↔
      r ∈ pool2At model vt B o k ∧ maxpIter model vt B o k / (B : ℚ) < r.prob) ∧
    (0 < maxpIter model vt B o k →
      maxpIter model vt B o (k + 1) =
        max (maxpIter model vt B o k) (poolMax (rowsAt model vt B o (k + 1)))) ∧
    (∀ i, i < (poolIter model vt B o (k + 1)).length →
      ((keepAt model vt B o k).getD i false = true ↔
        npUniform 0 (maxpIter model vt B o k) (o.accept k i) ≤
          ((poolIter model vt B o (k + 1)).getD i default).prob)) := by
  refine ⟨pool2At_eq model vt B o k, fun r hr => prob_le_maxpIter model vt B o k hr,
    maxpIter_mem model vt B o k (by omega), fun r => ?_,
    fun hpos => maxpIter_succ_of_pos model vt B o k hB hpos,
    fun i hi => keepAt_getD model vt B o k i hi⟩
  rw [poolIter_succ]
  simp only [List.mem_filter, decide_eq_true_eq, gt_iff_lt]

/-- Witness for C2 at the constant-1 density, batch size 10000, all-zero
draws, iteration 0. -/
theorem accept_test_step_witness :
    pool2At oneModel (fun _ => 1) 10000 zeroOracle 0 =
        poolIter oneModel (fun _ => 1) 10000 zeroOracle 0 ++
          rowsAt oneModel (fun _ => 1) 10000 zeroOracle 0 ∧
    (∀ r ∈ pool2At oneModel (fun _ => 1) 10000 zeroOracle 0,
      r.prob ≤ maxpIter oneModel (fun _ => 1) 10000 zeroOracle 0) ∧
    maxpIter oneModel (fun _ => 1) 10000 zeroOracle 0 ∈
      (pool2At oneModel (fun _ => 1) 10000 zeroOracle 0).map Row.prob ∧
    (∀ r : Row, r ∈ poolIter oneModel (fun _ => 1) 10000 zeroOracle 1 ↔
      r ∈ pool2At oneModel (fun _ => 1) 10000 zeroOracle 0 ∧
        maxpIter oneModel (fun _ => 1) 10000 zeroOracle 0 / ((10000 : ℕ) : ℚ) < r.prob) ∧
    (0 < maxpIter oneModel (fun _ => 1) 10000 zeroOracle 0 →
      maxpIter oneModel (fun _ => 1) 10000 zeroOracle 1 =
        max (maxpIter oneModel (fun _ => 1) 10000 zeroOracle 0)
          (poolMax (rowsAt oneModel (fun _ => 1) 10000 zeroOracle 1))) ∧
    (∀ i, i < (poolIter oneModel (fun _ => 1) 10000 zeroOracle 1).length →
      ((keepAt oneModel (fun _ => 1) 10000 zeroOracle 0).getD i false = true ↔
        npUniform 0 (maxpIter oneModel (fun _ => 1) 10000 zeroOracle 0)
            (zeroOracle.accept 0 i) ≤
          ((poolIter oneModel (fun _ => 1) 10000 zeroOracle 1).getD i default).prob)) :=
  accept_test_step oneModel (fun _ => 1) 10000 zeroOracle 0 (by norm_num)

/-!
Claim C3: monotonicity of the running maximum weight.
-/

/-- C3 (amended): across the iterations of a run, the `max_prob` used by
the acceptance test is non-decreasing whenever the candidate weights are
non-negative (as every true density times a positive mass is) and the
batch size is at least two (it is `10000 * n_samples`); with negative
weights it can decrease (see the counterexample). -/
theorem maxp_monotone_of_nonneg (model vt : ParamDict → ℚ) (B : ℕ) (o : Oracle)
    (hB : 2 ≤ B) (hw : ∀ k, ∀ r ∈ rowsAt model vt B o k, 0 ≤ r.prob) :
    ∀ k, maxpIter model vt B o k ≤ maxpIter model vt B o (k + 1) := by
  intro k
  have hB0 : 0 < B := by omega
  rcases lt_or_le 0 (maxpIter model vt B o k) with hpos | hle
  · rcases maxp_survives model vt B o k hB hpos with ⟨r, hr, hrp⟩
    have hmem : r ∈ pool2At model vt B o (k + 1) := by
      rw [pool2At_eq]
      exact List.mem_append_left _ hr
    calc maxpIter model vt B o k = r.prob := hrp.symm
      _ ≤ maxpIter model vt B o (k + 1) := prob_le_maxpIter model vt B o (k + 1) hmem
  · refine le_trans hle ?_
    rcases List.mem_map.mp (maxpIter_mem model vt B o (k + 1) hB0) with ⟨r, hr, hrp⟩
    rw [← hrp]
    rw [pool2At_eq] at hr
    rcases List.mem_append.mp hr with h | h
    · exact poolIter_nonneg model vt B o hw (k + 1) r h
    · exact hw (k + 1) r h

/-- Witness for C3: the constant-1 density, batch size 10000, all-zero
draws, first two iterations. -/
theorem maxp_monotone_of_nonneg_witness :
    maxpIter oneModel (fun _ => 1) 10000 zeroOracle 0 ≤
      maxpIter oneModel (fun _ => 1) 10000 zeroOracle 1 :=
  maxp_monotone_of_nonneg oneModel (fun _ => 1) 10000 zeroOracle (by norm_num)
    (fun k r hr => by
      rw [rowsAt_zero k] at hr
      rcases List.mem_replicate.mp hr with ⟨-, rfl⟩
      show (0 : ℚ) ≤ 1
      norm_num) 0

/-!
C3 counterexample: negative weights let the maximum decrease.
-/

theorem priorCandidate_neg0 (i : ℕ) : priorCandidate (oracleNeg.unit 0) i = cZero := by
  simp only [priorCandidate, oracleNeg, boundFor_mass_1, boundFor_mass_ratio, boundFor_a_1,
    boundFor_a_2, boundFor_cos_tilt_1, boundFor_cos_tilt_2, boundFor_redshift, npUniform,
    bilbyUniformSample, cZero, Candidate.mk.injEq]
  norm_num

theorem priorCandidate_neg1 (i : ℕ) :
    priorCandidate (oracleNeg.unit 1) i = ⟨2, 0, 0, 0, -1, -1, 0⟩ := by
  simp only [priorCandidate, oracleNeg, boundFor_mass_1, boundFor_mass_ratio, boundFor_a_1,
    boundFor_a_2, boundFor_cos_tilt_1, boundFor_cos_tilt_2, boundFor_redshift, npUniform,
    bilbyUniformSample, Candidate.mk.injEq]
  norm_num
  decide

theorem weightRow_neg_cZero : weightRow negOneModel (fun _ => 1) cZero = rowNeg0 := by
  simp only [weightRow, negOneModel, cZero, rowNeg0, Row.mk.injEq]
  norm_num

theorem weightRow_neg_c2 :
    weightRow negOneModel (fun _ => 1) ⟨2, 0, 0, 0, -1, -1, 0⟩ = rowNeg1 := by
  simp only [weightRow, negOneModel, rowNeg1, Row.mk.injEq]
  norm_num

theorem rowsAt_neg0 :
    rowsAt negOneModel (fun _ => 1) 10000 oracleNeg 0 = List.replicate 10000 rowNeg0 := by
  rw [rowsAt, _draw_from_prior, weightBatch, List.map_map]
  have h1 : (List.range 10000).map
        (weightRow negOneModel (fun _ => 1) ∘ priorCandidate (oracleNeg.unit 0)) =
      (List.range 10000).map (fun _ => rowNeg0) :=
    List.map_congr_left (fun i _ => by
      show weightRow negOneModel (fun _ => 1) (priorCandidate (oracleNeg.unit 0) i) = rowNeg0
      rw [priorCandidate_neg0, weightRow_neg_cZero])
  rw [h1, List.map_const', List.length_range]

theorem rowsAt_neg1 :
    rowsAt negOneModel (fun _ => 1) 10000 oracleNeg 1 = List.replicate 10000 rowNeg1 := by
  rw [rowsAt, _draw_from_prior, weightBatch, List.map_map]
  have h1 : (List.range 10000).map
        (weightRow negOneModel (fun _ => 1) ∘ priorCandidate (oracleNeg.unit 1)) =
      (List.range 10000).map (fun _ => rowNeg1) :=
    List.map_congr_left (fun i _ => by
      show weightRow negOneModel (fun _ => 1) (priorCandidate (oracleNeg.unit 1) i) = rowNeg1
      rw [priorCandidate_neg1, weightRow_neg_c2])
  rw [h1, List.map_const', List.length_range]

theorem maxp_neg0 : maxpIter negOneModel (fun _ => 1) 10000 oracleNeg 0 = -1 := by
  rw [maxpIter_eq, pool2At_eq, poolIter_zero, List.nil_append, rowsAt_neg0, poolMax,
    List.map_replicate, listMax_replicate (by norm_num)]
  rfl

theorem poolIter_neg1 : poolIter negOneModel (fun _ => 1) 10000 oracleNeg 1 = [] := by
  rw [poolIter_succ, List.filter_eq_nil_iff]
  intro r hr
  rw [pool2At_eq, poolIter_zero, List.nil_append, rowsAt_neg0] at hr
  have hre : r = rowNeg0 := (List.mem_replicate.mp hr).2
  subst hre
  simp only [decide_eq_true_eq, gt_iff_lt, not_lt]
  rw [maxp_neg0]
  show (-1 : ℚ) ≤ (-1 : ℚ) / ((10000 : ℕ) : ℚ)
  norm_num

theorem maxp_neg1 : maxpIter negOneModel (fun _ => 1) 10000 oracleNeg 1 = -2 := by
  rw [maxpIter_eq, pool2At_eq, poolIter_neg1, List.nil_append, rowsAt_neg1, poolMax,
    List.map_replicate, listMax_replicate (by norm_num)]
  rfl

/-- C3 counterexample: with a density evaluator that is `-1` everywhere
(negative weights, reachable for malformed hyperparameters), the
`max_prob` used by the acceptance test drops from `-1` at iteration 0 to
`-2` at iteration 1: the all-weights pruning empties the pool, and the
recomputed maximum forgets the old one. -/
theorem maxp_can_decrease :
    maxpIter negOneModel (fun _ => 1) 10000 oracleNeg 1 <
      maxpIter negOneModel (fun _ => 1) 10000 oracleNeg 0 := by
  rw [maxp_neg0, maxp_neg1]
  norm_num

/-!
C2 counterexample: both prune and re-test are non-strict where the claim
says strict.
-/

theorem priorCandidate_step0 : priorCandidate (oracleStep.unit 0) 0 = cZero := by
  simp only [priorCandidate, oracleStep, boundFor_mass_1, boundFor_mass_ratio, boundFor_a_1,
    boundFor_a_2, boundFor_cos_tilt_1, boundFor_cos_tilt_2, boundFor_redshift, npUniform,
    bilbyUniformSample, cZero, Candidate.mk.injEq]
  norm_num

theorem priorCandidate_stepSucc (i : ℕ) :
    priorCandidate (oracleStep.unit 0) (i + 1) = ⟨1, 1 / 2, 0, 0, -1, -1, 0⟩ := by
  simp only [priorCandidate, oracleStep, boundFor_mass_1, boundFor_mass_ratio, boundFor_a_1,
    boundFor_a_2, boundFor_cos_tilt_1, boundFor_cos_tilt_2, boundFor_redshift, npUniform,
    bilbyUniformSample, Candidate.mk.injEq, Nat.succ_ne_zero]
  norm_num
  decide

theorem weightRow_step_first : weightRow stepModel (fun _ => 1) cZero = rowStepA := by
  have hm : stepModel (Row.toDict ⟨1, 0, 0, 0, -1, -1, 0, 1 * 0, 0⟩) = 1 / 10000 := by
    simp [stepModel, Row.toDict, List.lookup]
  simp only [weightRow, cZero, rowStepA, Row.mk.injEq, hm]
  norm_num

theorem weightRow_step_other :
    weightRow stepModel (fun _ => 1) ⟨1, 1 / 2, 0, 0, -1, -1, 0⟩ = rowStepB := by
  have hm : stepModel (Row.toDict ⟨1, 1 / 2, 0, 0, -1, -1, 0, 1 * (1 / 2), 0⟩) = 1 := by
    simp [stepModel, Row.toDict, List.lookup]
  simp only [weightRow, rowStepB, Row.mk.injEq, hm]
  norm_num

theorem rowsAt_step :
    rowsAt stepModel (fun _ => 1) 10000 oracleStep 0 =
      rowStepA :: List.replicate 9999 rowStepB := by
  rw [rowsAt, _draw_from_prior, weightBatch, List.map_map]
  have hsplit : List.range 10000 = 0 :: (List.range 9999).map Nat.succ := by
    rw [show (10000 : ℕ) = 9999 + 1 from by norm_num, List.range_succ_eq_map]
  rw [hsplit, List.map_cons, List.map_map]
  have hhead : (weightRow stepModel (fun _ => 1) ∘ priorCandidate (oracleStep.unit 0)) 0 =
      rowStepA := by
    show weightRow stepModel (fun _ => 1) (priorCandidate (oracleStep.unit 0) 0) = rowStepA
    rw [priorCandidate_step0, weightRow_step_first]
  have htail : (List.range 9999).map
      ((weightRow stepModel (fun _ => 1) ∘ priorCandidate (oracleStep.unit 0)) ∘ Nat.succ) =
      List.replicate 9999 rowStepB := by
    have h1 : (List.range 9999).map
        ((weightRow stepModel (fun _ => 1) ∘ priorCandidate (oracleStep.unit 0)) ∘ Nat.succ) =
        (List.range 9999).map (fun _ => rowStepB) :=
      List.map_congr_left (fun i _ => by
        show weightRow stepModel (fun _ => 1)
          (priorCandidate (oracleStep.unit 0) (i + 1)) = rowStepB
        rw [priorCandidate_stepSucc, weightRow_step_other])
    rw [h1, List.map_const', List.length_range]
  rw [hhead, htail]

theorem maxp_step : maxpIter stepModel (fun _ => 1) 10000 oracleStep 0 = 1 := by
  rw [maxpIter_eq, pool2At_eq, poolIter_zero, List.nil_append, rowsAt_step, poolMax,
    List.map_cons, List.map_replicate, listMax, foldl_max_replicate]
  rw [if_neg (by norm_num)]
  show max rowStepA.prob rowStepB.prob = 1
  show max (1 / 10000 : ℚ) 1 = 1
  exact max_eq_right (by norm_num)

theorem poolIter_step1 :
    poolIter stepModel (fun _ => 1) 10000 oracleStep 1 = List.replicate 9999 rowStepB := by
  rw [poolIter_succ, pool2At_eq, poolIter_zero, List.nil_append, rowsAt_step, maxp_step]
  rw [List.filter_cons_of_neg, List.filter_replicate, if_pos]
  · show decide (rowStepB.prob > (1 : ℚ) / ((10000 : ℕ) : ℚ)) = true
    refine decide_eq_true ?_
    show (1 : ℚ) / ((10000 : ℕ) : ℚ) < rowStepB.prob
    show (1 : ℚ) / ((10000 : ℕ) : ℚ) < 1
    norm_num
  · show ¬ decide (rowStepA.prob > (1 : ℚ) / ((10000 : ℕ) : ℚ)) = true
    rw [decide_eq_true_eq]
    show ¬ (1 : ℚ) / ((10000 : ℕ) : ℚ) < rowStepA.prob
    show ¬ (1 : ℚ) / ((10000 : ℕ) : ℚ) < 1 / 10000
    norm_num

theorem keepAt_step :
    keepAt stepModel (fun _ => 1) 10000 oracleStep 0 = List.replicate 9999 true := by
  rw [keepAt_eq, poolIter_step1, maxp_step, List.length_replicate]
  have h1 : (List.range 9999).map (fun j => npUniform 0 1 (oracleStep.accept 0 j)) =
      (List.range 9999).map (fun _ => (1 : ℚ)) :=
    List.map_congr_left (fun j _ => by
      show npUniform 0 1 1 = 1
      rw [npUniform]
      ring)
  rw [h1, List.map_const', List.length_range, List.zipWith_replicate, min_self]
  have hdec : decide (rowStepB.prob ≥ (1 : ℚ)) = true :=
    decide_eq_true (by norm_num [rowStepB])
  simp only [hdec]

/-- C2 counterexample: at iteration 0 of a run with the fixed batch size
10000, the candidate `rowStepA` has weight exactly `max_prob / B` — not
below the floor — yet is discarded by the prune (the source keeps only
`prob > max_prob / B`); and the pooled candidate at index 0 passes the
re-test although its weight equals (does not exceed) its freshly drawn
threshold (the source accepts `prob >= draw`). -/
theorem accept_test_strictness_cex :
    (rowStepA ∈ pool2At stepModel (fun _ => 1) 10000 oracleStep 0 ∧
      ¬ rowStepA.prob <
          maxpIter stepModel (fun _ => 1) 10000 oracleStep 0 / ((10000 : ℕ) : ℚ) ∧
      rowStepA ∉ poolIter stepModel (fun _ => 1) 10000 oracleStep 1) ∧
    ((keepAt stepModel (fun _ => 1) 10000 oracleStep 0).getD 0 false = true ∧
      ¬ npUniform 0 (maxpIter stepModel (fun _ => 1) 10000 oracleStep 0)
            (oracleStep.accept 0 0) <
          ((poolIter stepModel (fun _ => 1) 10000 oracleStep 1).getD 0 default).prob) := by
  refine ⟨⟨?_, ?_, ?_⟩, ?_, ?_⟩
  · rw [pool2At_eq, poolIter_zero, List.nil_append, rowsAt_step]
    exact List.mem_cons_self _ _
  · rw [maxp_step]
    show ¬ rowStepA.prob < (1 : ℚ) / ((10000 : ℕ) : ℚ)
    show ¬ (1 / 10000 : ℚ) < (1 : ℚ) / ((10000 : ℕ) : ℚ)
    norm_num
  · rw [poolIter_step1]
    intro hmem
    have heq := (List.mem_replicate.mp hmem).2
    have : rowStepA.mass_ratio = rowStepB.mass_ratio := by rw [heq]
    rw [show rowStepA.mass_ratio = 0 from rfl, show rowStepB.mass_ratio = 1 / 2 from rfl]
      at this
    norm_num at this
  · rw [keepAt_step, show (9999 : ℕ) = 9998 + 1 from by norm_num, List.replicate_succ]
    rfl
  · rw [poolIter_step1, maxp_step, show (9999 : ℕ) = 9998 + 1 from by norm_num,
      List.replicate_succ]
    show ¬ npUniform 0 1 (oracleStep.accept 0 0) < rowStepB.prob
    show ¬ npUniform 0 1 1 < (1 : ℚ)
    rw [npUniform]
    norm_num

/-!
Claim C10: the discarded low-efficiency density evaluation has no effect.
-/

theorem sampleLoop_probe_free (model vt : ParamDict → ℚ) (B n : ℕ) (o : Oracle) :
    ∀ fuel pool k,
      sampleLoop model vt B n o fuel pool k = sampleLoopNoProbe model vt B n o fuel pool k := by
  intro fuel
  induction fuel with
  | zero => intro pool k; rfl
  | succ f ih =>
    intro pool k
    simp only [sampleLoop, sampleLoopNoProbe]
    split
    · rfl
    · exact ih _ _

/-- C10: removing the discarded `model.prob` probe of the
low-efficiency branch leaves the returned result unchanged for every
model, selection function, target count, random stream and fuel. -/
theorem probe_has_no_effect (model : ParamDict → ℚ) (vt_model : Option (ParamDict → ℚ))
    (n_samples : ℤ) (o : Oracle) (fuel : ℕ) :
    draw_true_values model vt_model n_samples o fuel =
      draw_true_values_no_probe model vt_model n_samples o fuel := by
  unfold draw_true_values draw_true_values_no_probe
  split
  · rfl
  · cases vt_model with
    | some v => rfl
    | none =>
      exact congrArg Except.ok
        (sampleLoop_probe_free model (fun _ => 1) (n_samples.toNat * 10000) n_samples.toNat
          o fuel [] 0)

end CbcPop
